import Mathlib

/-!
Verification of the managed-groups request-processing pipeline
(`internal/servers/controller/handlers/managed_groups/managed_group_service.go`).

The Go handler code is embedded shallowly: each Go function becomes a Lean
definition with the same structure; external collaborators (the repository,
the policy engine, the filter-expression engine) become explicit parameters;
Go `nil`-able values become `Option`; fallible calls return `Except`.
Calls to the repository and the policy engine are additionally recorded in an
event trace so that ordering properties ("X happens before any repository
call") can be stated.  Helpers from other packages of the repository
(`handlers.*`, `auth.SubtypeFromId`, `oidc.NewManagedGroup`, ...) are not in
the provided source; they are modelled from the specification and marked as
such in their doc comments.
-/

namespace ManagedGroups

/-! ## String constants (identifier tags, field names, messages) -/

/-- Modelled from the spec: the structural tag of oidc managed-group ids
(`oidc.ManagedGroupPrefix` plus the `_` separator). -/
def mgTag : String := "mgoidc_"

/-- Modelled from the spec: the structural tag of oidc auth-method ids
(`oidc.AuthMethodPrefix` plus the `_` separator). -/
def amTag : String := "amoidc_"

def globId : String := "id"

def globAuthMethodId : String := "auth_method_id"

def globName : String := "name"

def globDescription : String := "description"

def globCreatedTime : String := "created_time"

def globUpdatedTime : String := "updated_time"

def globVersion : String := "version"

def globScope : String := "scope"

def globAuthorizedActions : String := "authorized_actions"

def globType : String := "type"

def globAttributes : String := "attributes"

def globFilterField : String := "filter"

/-- `attrFilterField` from the source: the wire path of the oidc filter attribute. -/
def attrFilterField : String := "attributes.filter"

/-- The name of the single attribute of the Oidc variant, as a struct key. -/
def filterKey : String := "filter"

/-- The string name of the Oidc subtype (`auth.OidcSubtype.String()`). -/
def oidcTypeStr : String := "oidc"

def storeName : String := "Name"

def storeDescription : String := "Description"

def storeFilter : String := "Filter"

/-! ## Identifier classifier -/

/-- Character-list matching of a structural tag at the head of an id. -/
def tagMatches : List Char → List Char → Bool
  | [], _ => true
  | _ :: _, [] => false
  | c :: cs, d :: ds => (c == d) && tagMatches cs ds

/-- `hasTag t id` holds when the id starts with the structural tag `t`. -/
def hasTag (tag : String) (id : String) : Bool :=
  tagMatches tag.data id.data

/-- The subtype of a resource id, recovered from its structural tag. -/
inductive Subtype
  | oidc
  | unknown
deriving DecidableEq

/-- Modelled from the spec: `auth.SubtypeFromId` — a pure structural-tag
inspection mapping every id to exactly one subtype or Unknown (§4.1).
The ids handled by this service carry either the managed-group tag or the
auth-method tag of the Oidc subtype. -/
def SubtypeFromId (id : String) : Subtype :=
  if hasTag mgTag id || hasTag amTag id then .oidc else .unknown

/-! ## Errors -/

/-- The error taxonomy surfaced to the caller (spec §7). `invalidParameter`
stands for the internal `errors.InvalidParameter` class used for nil inputs. -/
inductive ErrCode
  | invalidArgument
  | notFound
  | internal
  | invalidParameter
  | permissionDenied
  | other
deriving DecidableEq

/-- A surfaced error: code, message, and the field-keyed detail map that
`handlers.InvalidArgumentErrorf` carries. -/
structure ApiErr where
  code : ErrCode
  msg : String
  badFields : List (String × String) := []
deriving DecidableEq

def apiErr (c : ErrCode) (m : String) : ApiErr := { code := c, msg := m }

def msgResourceNotFound : String := "Resource not found."

/-- `handlers.NotFoundError()`. -/
def handlersNotFoundError : ApiErr := { code := .notFound, msg := msgResourceNotFound }

/-- `handlers.NotFoundErrorf` with a formatted message. -/
def notFoundErrorf (m : String) : ApiErr := apiErr .notFound m

/-- `handlers.InvalidArgumentErrorf`. -/
def invalidArgErr (m : String) (bf : List (String × String)) : ApiErr :=
  { code := .invalidArgument, msg := m, badFields := bf }

/-- `handlers.ApiErrorWithCodeAndMessage(codes.Internal, ...)`. -/
def apiInternalErr (m : String) : ApiErr := apiErr .internal m

/-- `errors.New(errors.InvalidParameter, op, msg)`. -/
def invalidParameterErr (m : String) : ApiErr := apiErr .invalidParameter m

/-- `errors.New(errors.Internal, op, msg)`. -/
def internalErr (m : String) : ApiErr := apiErr .internal m

/-- `errors.Wrap(err, op, ...)`: wrapping preserves the surfaced error
(class, code and message are carried through to the caller unchanged). -/
def wrapErr (e : ApiErr) : ApiErr := e

/-- `errors.IsNotFoundError`. -/
def isNotFoundError (e : ApiErr) : Bool := e.code == .notFound

/-! ## Data model -/

/-- `oidc.ManagedGroup` (store row): the Oidc variant of a managed group.
Timestamps are abstracted to naturals. -/
structure OidcManagedGroup where
  publicId : String
  authMethodId : String
  name : String
  description : String
  version : Nat
  createTime : Nat
  updateTime : Nat
  filter : String
deriving DecidableEq

/-- `auth.ManagedGroup`: the polymorphic entity; today the Oidc variant is
the only concrete subtype. -/
inductive ManagedGroup
  | oidc (mg : OidcManagedGroup)
deriving DecidableEq

def ManagedGroup.getPublicId : ManagedGroup → String
  | .oidc m => m.publicId

def ManagedGroup.getAuthMethodId : ManagedGroup → String
  | .oidc m => m.authMethodId

def ManagedGroup.getName : ManagedGroup → String
  | .oidc m => m.name

def ManagedGroup.getDescription : ManagedGroup → String
  | .oidc m => m.description

def ManagedGroup.getVersion : ManagedGroup → Nat
  | .oidc m => m.version

def ManagedGroup.getCreateTime : ManagedGroup → Nat
  | .oidc m => m.createTime

def ManagedGroup.getUpdateTime : ManagedGroup → Nat
  | .oidc m => m.updateTime

/-- `auth.AuthMethod`: the parent resource; read-only here. -/
structure AuthMethod where
  publicId : String
  scopeId : String
deriving DecidableEq

/-- `scopes.ScopeInfo` as carried in authorization results and output. -/
structure ScopeInfo where
  id : String
deriving DecidableEq

/-! ## Attribute codec (generic structured form) -/

/-- A value of the generic structured wire form (`structpb.Value`, restricted
to the shapes this service exchanges). -/
inductive GValue
  | str (s : String)
  | num (n : Int)
  | boolean (b : Bool)
  | null
deriving DecidableEq

/-- The generic structured form (`structpb.Struct`): a field map. -/
abbrev GStruct := List (String × GValue)

/-- `pb.OidcManagedGroupAttributes`: the Oidc variant's attribute payload. -/
structure OidcAttrs where
  filter : String
deriving DecidableEq

/-- Modelled from the spec: the encode direction of the attribute codec —
the generic-struct image of an Oidc attribute payload (§4.2). -/
def encodeOidcAttrs (a : OidcAttrs) : GStruct := [(filterKey, .str a.filter)]

/-- Modelled from the spec: `handlers.ProtoToStruct` on
`pb.OidcManagedGroupAttributes` — encoding a previously valid attribute
value is total (§4.4: a codec failure here is a programming-invariant
violation and cannot occur for these payloads). -/
def protoToStruct (a : OidcAttrs) : Except ApiErr GStruct := .ok (encodeOidcAttrs a)

/-- Modelled from the spec: `handlers.StructToProto` into
`pb.OidcManagedGroupAttributes` — the decode direction of the attribute
codec (§4.2): the struct may carry only the `filter` field, as a string
(a missing field decodes to its zero value); any other shape is a
malformed-attributes error. -/
def structToProtoOidc (st : GStruct) : Except Unit OidcAttrs :=
  match st with
  | [] => .ok { filter := "" }
  | [(k, .str v)] => if k = filterKey then .ok { filter := v } else .error ()
  | _ => .error ()

/-- Decoding an optional struct (`GetAttributes()` may be nil, which decodes
to the zero attribute value). -/
def structToProtoOidcOpt : Option GStruct → Except Unit OidcAttrs
  | none => .ok { filter := "" }
  | some st => structToProtoOidc st

/-! ## Wire representation (`pb.ManagedGroup`) -/

/-- `pb.ManagedGroup`, the wire representation.  Every field is optional:
`none` means the field is not set on the wire (for the wrapper-typed
`name`/`description` this is the wrapper being nil; for the remaining
fields it is the unset/zero state the projector leaves when the field was
not requested). -/
structure PbManagedGroup where
  id : Option String := none
  authMethodId : Option String := none
  name : Option String := none
  description : Option String := none
  createdTime : Option Nat := none
  updatedTime : Option Nat := none
  version : Option Nat := none
  scope : Option ScopeInfo := none
  authorizedActions : Option (List String) := none
  type : Option String := none
  attributes : Option GStruct := none
deriving DecidableEq

/-- `GetAuthMethodId()` on a possibly-nil item. -/
def pbGetAuthMethodId (item : Option PbManagedGroup) : String :=
  match item with
  | none => ""
  | some it => it.authMethodId.getD ""

/-- `GetType()` on a possibly-nil item. -/
def pbGetType (item : Option PbManagedGroup) : String :=
  match item with
  | none => ""
  | some it => it.type.getD ""

/-- `GetAttributes()` on a possibly-nil item. -/
def pbGetAttributes (item : Option PbManagedGroup) : Option GStruct :=
  match item with
  | none => none
  | some it => it.attributes

/-- `GetVersion()` on a possibly-nil item. -/
def pbGetVersion (item : Option PbManagedGroup) : Nat :=
  match item with
  | none => 0
  | some it => it.version.getD 0

/-- `GetId()` on an item. -/
def pbGetId (p : PbManagedGroup) : String := p.id.getD ""

/-! ## Output projector (`toProto`) -/

/-- The `handlers.Option` values consumed by `toProto`:
`WithOutputFields`, `WithScope`, `WithAuthorizedActions`. -/
structure TPOpts where
  withOutputFields : Option (List String) := none
  withScope : Option ScopeInfo := none
  withAuthorizedActions : Option (List String) := none

def toProtoNoFieldsErr : ApiErr :=
  apiInternalErr "output fields not found when building managed group proto"

def attrStructInternalErr : ApiErr :=
  apiInternalErr "failed building oidc attribute struct"

/-- The attribute payload of an Oidc store row. -/
def oidcAttrsOfGroup (i : OidcManagedGroup) : OidcAttrs := { filter := i.filter }

/-- `toProto`: the output projector.  Each field is emitted independently,
gated on membership of its name in the requested output-field set;
`name`/`description` additionally require a non-empty value; the subtype
switch contributes the `type` tag and the encoded `attributes` block for
the Oidc variant. -/
def toProto (input : ManagedGroup) (opt : TPOpts) : Except ApiErr PbManagedGroup :=
  match opt.withOutputFields with
  | none => .error toProtoNoFieldsErr
  | some outputFields =>
    let scalar : PbManagedGroup := {
      id := if outputFields.contains globId then some input.getPublicId else none
      authMethodId :=
        if outputFields.contains globAuthMethodId then some input.getAuthMethodId else none
      description :=
        if outputFields.contains globDescription && input.getDescription != "" then
          some input.getDescription else none
      name :=
        if outputFields.contains globName && input.getName != "" then
          some input.getName else none
      createdTime := if outputFields.contains globCreatedTime then some input.getCreateTime else none
      updatedTime := if outputFields.contains globUpdatedTime then some input.getUpdateTime else none
      version := if outputFields.contains globVersion then some input.getVersion else none
      scope := if outputFields.contains globScope then opt.withScope else none
      authorizedActions :=
        if outputFields.contains globAuthorizedActions then opt.withAuthorizedActions else none
      type := none
      attributes := none }
    match input with
    | .oidc i =>
      let withTy : PbManagedGroup :=
        { scalar with type := if outputFields.contains globType then some oidcTypeStr else none }
      if outputFields.contains globAttributes then
        match protoToStruct (oidcAttrsOfGroup i) with
        | .error _ => .error attrStructInternalErr
        | .ok st => .ok { withTy with attributes := some st }
      else .ok withTy

/-- The set of field names actually set on a wire representation. -/
def pbSetFields (p : PbManagedGroup) : List String :=
  (if p.id.isSome then [globId] else []) ++
  (if p.authMethodId.isSome then [globAuthMethodId] else []) ++
  (if p.name.isSome then [globName] else []) ++
  (if p.description.isSome then [globDescription] else []) ++
  (if p.createdTime.isSome then [globCreatedTime] else []) ++
  (if p.updatedTime.isSome then [globUpdatedTime] else []) ++
  (if p.version.isSome then [globVersion] else []) ++
  (if p.scope.isSome then [globScope] else []) ++
  (if p.authorizedActions.isSome then [globAuthorizedActions] else []) ++
  (if p.type.isSome then [globType] else []) ++
  (if p.attributes.isSome then [globAttributes] else [])

/-! ## External collaborators -/

/-- `action.Type`, restricted to the actions this service uses. -/
inductive ActionT
  | list
  | create
  | read
  | update
  | delete
  | noop
deriving DecidableEq

/-- `action.Type.String()` for the actions above. -/
def ActionT.str : ActionT → String
  | .list => "list"
  | .create => "create"
  | .read => "read"
  | .update => "update"
  | .delete => "delete"
  | .noop => "no-op"

/-- `IdActions`: the per-subtype action set on individual resources; a map
lookup on an unregistered subtype yields the empty set. -/
def IdActions : Subtype → List ActionT
  | .oidc => [.noop, .read, .update, .delete]
  | .unknown => []

/-- `CollectionActions`. -/
def CollectionActions : List ActionT := [.create, .list]

/-- A repository or policy-engine invocation, recorded in the trace of each
operation in the order the Go code performs it. -/
inductive Event
  | lookupManagedGroup (id : String)
  | lookupAuthMethod (id : String)
  | createManagedGroup
  | updateManagedGroup
  | deleteManagedGroup (id : String)
  | listManagedGroups (authMethodId : String)
  | verify
deriving DecidableEq

/-- The repository collaborator (`oidc.Repository`), external: every call may
fail, lookups may find nothing, the conditional update reports the number of
rows affected. -/
structure OidcRepo where
  lookupManagedGroup : String → Except ApiErr (Option OidcManagedGroup)
  lookupAuthMethod : String → Except ApiErr (Option AuthMethod)
  createManagedGroup : String → OidcManagedGroup → Except ApiErr (Option OidcManagedGroup)
  updateManagedGroup :
    String → OidcManagedGroup → Nat → List String →
      Except ApiErr (Option OidcManagedGroup × Nat)
  deleteManagedGroup : String → String → Except ApiErr Nat
  listManagedGroups : String → Except ApiErr (List OidcManagedGroup)

/-- The service: an oidc repository factory (`common.OidcAuthRepoFactory`),
which may itself fail. -/
structure Service where
  oidcRepoFn : Except ApiErr OidcRepo

/-- `auth.VerifyResults`: the policy engine's verdict plus the resolved scope
and acting user. -/
structure VerifyResults where
  error : Option ApiErr := none
  scope : Option ScopeInfo := none
  userId : String := ""
deriving DecidableEq

/-- The resource context handed to the policy engine: resolved scope, pin
(the parent auth-method id), requested action, optional resource id. -/
structure VerifyCtx where
  scopeId : String
  pin : String
  action : ActionT
  resourceId : Option String
deriving DecidableEq

/-- The policy-engine collaborator: `auth.Verify`, plus the per-result helper
calls on `VerifyResults`.  `fetchOutputFields` stands for
`FetchOutputFields(res, action).SelfOrDefaults(userId)`: the output-field
set the actor is entitled to for a given resource id. -/
structure Policy where
  verify : VerifyCtx → VerifyResults
  fetchActionSetForId : String → List ActionT → List ActionT
  fetchOutputFields : String → List String

/-- The filter-expression engine (spec §6): one grammar, used for a syntax
check at validation time (`bexpr.CreateEvaluator`) and for matching projected
items at list time (`handlers.NewFilter` / `filter.Match`). -/
structure FilterEngine where
  evalOk : String → Bool
  newFilter : String → Except ApiErr (PbManagedGroup → Bool)

/-- `requests.OutputFields(ctx)`: the per-request context carrying the
requested output-field set; absent when no request context was installed. -/
structure Ctx where
  outputFields : Option (List String)

/-- The scope id of a verify result (`authResults.Scope.GetId()`, empty when
the scope is nil). -/
def vrScopeId (vr : VerifyResults) : String :=
  match vr.scope with
  | none => ""
  | some s => s.id

/-! ## Authorization resolver (`parentAndAuthResult`) -/

/-- The outcome of `parentAndAuthResult`: in Go a `(auth.AuthMethod,
auth.VerifyResults)` pair where the auth method is nil whenever the results
carry an error; `nilDeref` marks the path on which the Go code would call
`GetScopeId()` on a nil auth method (a panic). -/
inductive PAA
  | res (am : Option AuthMethod) (vr : VerifyResults)
  | nilDeref
deriving DecidableEq

/-- A `VerifyResults` carrying only an error (the `res.Error = err` pattern
on the zero value). -/
def errResults (e : ApiErr) : VerifyResults := { error := some e }

/-- The tail of `parentAndAuthResult` from the parent-resolution switch on:
look up the parent auth method of the given id (for the Oidc subtype),
report NotFound when it is absent, then submit the assembled resource
context to the policy engine.  On an unrecognized parent subtype the auth
method stays nil and the subsequent `GetScopeId()` call dereferences nil. -/
def paaParent (repo : OidcRepo) (pol : Policy) (tr : List Event)
    (parentId : String) (resId : Option String) (a : ActionT) : PAA × List Event :=
  match SubtypeFromId parentId with
  | .oidc =>
    match repo.lookupAuthMethod parentId with
    | .error e => (.res none (errResults e), tr ++ [.lookupAuthMethod parentId])
    | .ok none => (.res none (errResults handlersNotFoundError), tr ++ [.lookupAuthMethod parentId])
    | .ok (some am) =>
        (.res (some am) (pol.verify { scopeId := am.scopeId, pin := parentId, action := a, resourceId := resId }),
         tr ++ [.lookupAuthMethod parentId, .verify])
  | .unknown => (.nilDeref, tr)

/-- `parentAndAuthResult`: resolve the parent chain for an operation and
invoke the policy engine.  For List/Create the supplied id is the parent
auth-method id; otherwise the managed group is looked up first (absent ⇒
NotFound before any policy call) and its `auth_method_id` becomes the
parent id. -/
def parentAndAuthResult (s : Service) (pol : Policy) (id : String) (a : ActionT) :
    PAA × List Event :=
  match s.oidcRepoFn with
  | .error e => (.res none (errResults e), [])
  | .ok repo =>
    if a = ActionT.list ∨ a = ActionT.create then
      paaParent repo pol [] id none a
    else
      match SubtypeFromId id with
      | .oidc =>
        match repo.lookupManagedGroup id with
        | .error e => (.res none (errResults e), [.lookupManagedGroup id])
        | .ok none =>
            (.res none (errResults handlersNotFoundError), [.lookupManagedGroup id])
        | .ok (some acct) =>
            paaParent repo pol [.lookupManagedGroup id] acct.authMethodId (some id) a
      | .unknown => paaParent repo pol [] "" (some id) a

/-! ## Messages and composed errors -/

def msgUnrecognizedId : String := "Unrecognized id."

def msgMgExistsA : String := "ManagedGroup "

def msgMgExistsB : String := " doesn't exist."

def msgUpdNotFoundA : String := "Managed Group "

def msgUpdNotFoundB : String := " doesn't exist or incorrect version provided."

def msgNoMask : String := "No valid fields included in the update mask."

def msgNoMaskDetail : String := "No valid fields provided in the update mask."

def updateMaskKey : String := "update_mask"

def msgErrInRequest : String := "Error in provided request."

def msgBadAttrs : String := "Attribute fields do not match the expected format."

def msgMissingItem : String := "missing item"

def msgNilManagedGroup : String := "nil managed group."

def msgUnableBuild : String := "Unable to build user for creation."

def msgCreateNoErr : String := "Unable to create managed group but no error returned from repository."

def msgUpdateNoErr : String := "Unable to update managed group but no error returned from repository."

def msgNoReqCtx : String := "no request context found"

def msgFieldRequired : String := "This field is required."

def msgTypeMismatchCreate : String := "Doesn't match the parent resource's type."

def msgTypeMismatchUpdate : String := "Cannot modify the resource type."

def msgUnknownAmType : String := "Unknown auth method type from ID."

def msgFilterEmpty : String := "Field cannot be empty."

def msgFilterBad : String := "Error evaluating submitted filter expression."

def msgBadIdFormat : String := "Invalid formatted identifier."

def msgBadFilterParse : String := "This field could not be parsed."

def msgItemRequired : String := "The item field is required."

def msgVersionRequired : String := "Existing resource version is required for an update."

def msgMaskRequired : String := "UpdateMask not provided but is required to update this resource."

def itemKey : String := "item"

def uriHead : String := "managed-groups/"

/-- The NotFound error `getFromRepo` raises for an unrecognized id. -/
def unrecognizedIdErr : ApiErr := notFoundErrorf msgUnrecognizedId

/-- The NotFound error `getFromRepo` raises for an absent row. -/
def mgNotFoundErr (id : String) : ApiErr :=
  notFoundErrorf (msgMgExistsA ++ id ++ msgMgExistsB)

/-- The NotFound error `updateOidcInRepo` raises on a zero-rows-affected
conditional update (absent row, or version mismatch). -/
def updateNotFoundErr (id : String) : ApiErr :=
  notFoundErrorf (msgUpdNotFoundA ++ id ++ msgUpdNotFoundB)

/-- The InvalidArgument error for a mask that translates to no storage fields. -/
def noMaskErr : ApiErr :=
  { code := .invalidArgument, msg := msgNoMask, badFields := [(updateMaskKey, msgNoMaskDetail)] }

/-- The InvalidArgument error for attributes that fail to decode. -/
def badAttrsErr : ApiErr :=
  { code := .invalidArgument, msg := msgErrInRequest, badFields := [(globAttributes, msgBadAttrs)] }

/-- The Internal error raised when no request context is found. -/
def noReqCtxErr : ApiErr := internalErr msgNoReqCtx

/-! ## Update-mask translator -/

/-- Modelled from the spec: the per-path translation of the
`handlers.MaskManager` built from the oidc managed-group store and API
protos — a wire field path maps to the storage field names mutable for the
Oidc subtype; unknown or non-updatable paths are silently dropped (§4.3). -/
def translateOne (p : String) : List String :=
  if p = globName then [storeName]
  else if p = globDescription then [storeDescription]
  else if p = attrFilterField then [storeFilter]
  else []

/-- Modelled from the spec: `oidcMaskManager.Translate` — the storage field
set of a wire mask (§4.3). -/
def oidcMaskManagerTranslate (paths : List String) : List String :=
  paths.foldr (fun p acc => translateOne p ++ acc) []

/-- Modelled from the spec: `handlers.MaskContains` — whether a mask carries
a given path. -/
def maskContains (paths : List String) (p : String) : Bool := paths.contains p

/-! ## Repository-layer dispatchers -/

/-- `getFromRepo`: subtype dispatch for Get; an unrecognized id maps to
NotFound, an absent row (repository not-found error) to a formatted
NotFound.  A nil row without error flows through as `none`. -/
def getFromRepo (s : Service) (id : String) :
    Except ApiErr (Option ManagedGroup) × List Event :=
  match SubtypeFromId id with
  | .oidc =>
    match s.oidcRepoFn with
    | .error e => (.error e, [])
    | .ok repo =>
      match repo.lookupManagedGroup id with
      | .error e =>
        if isNotFoundError e then (.error (mgNotFoundErr id), [.lookupManagedGroup id])
        else (.error e, [.lookupManagedGroup id])
      | .ok none => (.ok none, [.lookupManagedGroup id])
      | .ok (some mg) => (.ok (some (.oidc mg)), [.lookupManagedGroup id])
  | .unknown => (.error unrecognizedIdErr, [])

/-- Modelled from the spec: `oidc.NewManagedGroup` — the subtype constructor;
the owning auth-method id and the filter are required (§3: filter required,
non-empty; §4.7 Create). -/
def newOidcManagedGroup (amId filterStr nm ds : String) : Except Unit OidcManagedGroup :=
  if amId = "" || filterStr = "" then .error ()
  else .ok { publicId := "", authMethodId := amId, name := nm, description := ds,
             version := 0, createTime := 0, updateTime := 0, filter := filterStr }

/-- `createOidcInRepo`: decode the attributes, build the draft entity and
insert it through the repository. -/
def createOidcInRepo (s : Service) (am : AuthMethod) (item : Option PbManagedGroup) :
    Except ApiErr OidcManagedGroup × List Event :=
  match item with
  | none => (.error (invalidParameterErr msgMissingItem), [])
  | some it =>
    match structToProtoOidcOpt it.attributes with
    | .error _ => (.error badAttrsErr, [])
    | .ok attrs =>
      match newOidcManagedGroup am.publicId attrs.filter (it.name.getD "") (it.description.getD "") with
      | .error _ => (.error (apiInternalErr msgUnableBuild), [])
      | .ok mg =>
        match s.oidcRepoFn with
        | .error e => (.error e, [])
        | .ok repo =>
          match repo.createManagedGroup am.scopeId mg with
          | .error e => (.error (wrapErr e), [.createManagedGroup])
          | .ok none => (.error (apiInternalErr msgCreateNoErr), [.createManagedGroup])
          | .ok (some out) => (.ok out, [.createManagedGroup])

/-- `createInRepo`: subtype dispatch for Create, keyed on the parent
auth-method id; an unregistered subtype leaves the result nil without error. -/
def createInRepo (s : Service) (am : AuthMethod) (item : Option PbManagedGroup) :
    Except ApiErr (Option ManagedGroup) × List Event :=
  match item with
  | none => (.error (invalidParameterErr msgMissingItem), [])
  | some _ =>
    match SubtypeFromId am.publicId with
    | .oidc =>
      match createOidcInRepo s am item with
      | (.error e, tr) => (.error (wrapErr e), tr)
      | (.ok mg, tr) => (.ok (some (.oidc mg)), tr)
    | .unknown => (.ok none, [])

/-- `oidc.AllocManagedGroup()`: the zero-valued store row. -/
def allocManagedGroup : OidcManagedGroup :=
  { publicId := "", authMethodId := "", name := "", description := "",
    version := 0, createTime := 0, updateTime := 0, filter := "" }

/-- The draft row `updateOidcInRepo` builds from the request item before the
conditional update (name/description copied when the wrappers are present;
the filter set from the decoded attributes — it only takes effect if the
translated mask names it). -/
def buildUpdateMg (id : String) (item : PbManagedGroup) : Except ApiErr OidcManagedGroup :=
  let mg0 := { allocManagedGroup with publicId := id }
  let mg1 := match item.name with
    | some n => { mg0 with name := n }
    | none => mg0
  let mg2 := match item.description with
    | some d => { mg1 with description := d }
    | none => mg1
  match item.attributes with
  | none => .ok mg2
  | some st =>
    match structToProtoOidc st with
    | .error _ => .error badAttrsErr
    | .ok attrs => .ok { mg2 with filter := attrs.filter }

/-- `updateOidcInRepo`: translate the mask (rejecting an empty translation
before any repository access), run the version-conditioned update, and map a
zero-rows-affected outcome to NotFound. -/
def updateOidcInRepo (s : Service) (scopeId _amId id : String) (mask : List String)
    (item : Option PbManagedGroup) :
    Except ApiErr (Option OidcManagedGroup) × List Event :=
  match item with
  | none => (.error (invalidParameterErr msgNilManagedGroup), [])
  | some it =>
    match buildUpdateMg id it with
    | .error e => (.error e, [])
    | .ok mg =>
      let version := pbGetVersion (some it)
      let dbMask := oidcMaskManagerTranslate mask
      if dbMask = [] then (.error noMaskErr, [])
      else
        match s.oidcRepoFn with
        | .error e => (.error (wrapErr e), [])
        | .ok repo =>
          match repo.updateManagedGroup scopeId mg version dbMask with
          | .error e => (.error (wrapErr e), [.updateManagedGroup])
          | .ok (out, rowsUpdated) =>
            if rowsUpdated = 0 then (.error (updateNotFoundErr id), [.updateManagedGroup])
            else (.ok out, [.updateManagedGroup])

/-! ## Requests -/

structure GetRequest where
  id : String
deriving DecidableEq

structure DeleteRequest where
  id : String
deriving DecidableEq

structure ListRequest where
  authMethodId : String
  filter : String
deriving DecidableEq

structure CreateRequest where
  item : Option PbManagedGroup
deriving DecidableEq

structure UpdateRequest where
  id : String
  updateMask : List String
  item : Option PbManagedGroup
deriving DecidableEq

/-- `updateInRepo`: subtype dispatch for Update; a nil result without error
is an Internal fault; an unregistered subtype leaves the result nil. -/
def updateInRepo (s : Service) (scopeId authMethodId : String) (req : UpdateRequest) :
    Except ApiErr (Option ManagedGroup) × List Event :=
  match SubtypeFromId req.id with
  | .oidc =>
    match updateOidcInRepo s scopeId authMethodId req.id req.updateMask req.item with
    | (.error e, tr) => (.error (wrapErr e), tr)
    | (.ok none, tr) => (.error (apiInternalErr msgUpdateNoErr), tr)
    | (.ok (some mg), tr) => (.ok (some (.oidc mg)), tr)
  | .unknown => (.ok none, [])

/-- `deleteFromRepo`: subtype dispatch for Delete; a repository not-found
error is swallowed into `false`; otherwise the boolean reports whether a row
was deleted. -/
def deleteFromRepo (s : Service) (scopeId id : String) :
    Except ApiErr Bool × List Event :=
  match SubtypeFromId id with
  | .oidc =>
    match s.oidcRepoFn with
    | .error e => (.error e, [])
    | .ok repo =>
      match repo.deleteManagedGroup scopeId id with
      | .error e =>
        if isNotFoundError e then (.ok false, [.deleteManagedGroup id])
        else (.error (wrapErr e), [.deleteManagedGroup id])
      | .ok rows => (.ok (decide (rows > 0)), [.deleteManagedGroup id])
  | .unknown => (.ok false, [])

/-- `listFromRepo`: subtype dispatch for List, keyed on the parent
auth-method id. -/
def listFromRepo (s : Service) (authMethodId : String) :
    Except ApiErr (List ManagedGroup) × List Event :=
  match SubtypeFromId authMethodId with
  | .oidc =>
    match s.oidcRepoFn with
    | .error e => (.error (wrapErr e), [])
    | .ok repo =>
      match repo.listManagedGroups authMethodId with
      | .error e => (.error (wrapErr e), [.listManagedGroups authMethodId])
      | .ok l => (.ok (l.map ManagedGroup.oidc), [.listManagedGroups authMethodId])
  | .unknown => (.ok [], [])

/-! ## Request validators -/

/-- The InvalidArgument error for a malformed identifier. -/
def badIdErr : ApiErr :=
  { code := .invalidArgument, msg := msgErrInRequest, badFields := [(globId, msgBadIdFormat)] }

/-- Modelled from the spec: the id-format part of
`handlers.ValidateGetRequest` / `ValidateDeleteRequest` /
`ValidateUpdateRequest` — the id must carry one of the given structural tags
(the source passes `oidc.ManagedGroupPrefix`); a malformed request shape is
an InvalidArgument with a field-keyed detail (§7). -/
def validateIdFormat (tag : String) (id : String) : Option ApiErr :=
  if hasTag tag id then none
  else some badIdErr

def validateGetRequest (req : GetRequest) : Option ApiErr :=
  validateIdFormat mgTag req.id

def validateDeleteRequest (req : DeleteRequest) : Option ApiErr :=
  validateIdFormat mgTag req.id

/-- `validateListRequest`: the auth-method id must be correctly formatted and
the filter string must parse. -/
def validateListRequest (fe : FilterEngine) (req : ListRequest) : Option ApiErr :=
  let badFields :=
    (if hasTag amTag req.authMethodId then [] else [(globAuthMethodId, msgBadIdFormat)]) ++
    (match fe.newFilter req.filter with
      | .error _ => [(globFilterField, msgBadFilterParse)]
      | .ok _ => [])
  if badFields = [] then none else some (invalidArgErr msgErrInRequest badFields)

/-- The subtype-specific bad fields of a Create request (the closure passed
to `handlers.ValidateCreateRequest`): required parent id, consistent type
tag, decodable attributes, required and syntactically valid filter; an
unknown parent subtype is itself a bad field. -/
def createBadFields (fe : FilterEngine) (req : CreateRequest) : List (String × String) :=
  let amId := pbGetAuthMethodId req.item
  let bf0 := if amId = "" then [(globAuthMethodId, msgFieldRequired)] else []
  match SubtypeFromId amId with
  | .oidc =>
    let ty := pbGetType req.item
    let bfT := if ty != "" && ty != oidcTypeStr then [(globType, msgTypeMismatchCreate)] else []
    let dec := structToProtoOidcOpt (pbGetAttributes req.item)
    let bfA := match dec with
      | .error _ => [(globAttributes, msgBadAttrs)]
      | .ok _ => []
    let attrs : OidcAttrs := match dec with
      | .error _ => { filter := "" }
      | .ok a => a
    let bfF :=
      if attrs.filter = "" then [(attrFilterField, msgFieldRequired)]
      else if fe.evalOk attrs.filter then [] else [(attrFilterField, msgFilterBad)]
    bf0 ++ bfT ++ bfA ++ bfF
  | .unknown => bf0 ++ [(globAuthMethodId, msgUnknownAmType)]

/-- Modelled from the spec: `handlers.ValidateCreateRequest` — the item is
required; the request is rejected as InvalidArgument when the subtype
validator reports any bad field (§4.7). -/
def validateCreateRequest (fe : FilterEngine) (req : CreateRequest) : Option ApiErr :=
  match req.item with
  | none => some (invalidArgErr msgErrInRequest [(itemKey, msgItemRequired)])
  | some _ =>
    let bf := createBadFields fe req
    if bf = [] then none else some (invalidArgErr msgErrInRequest bf)

/-- The subtype-specific bad fields of an Update request (the closure passed
to `handlers.ValidateUpdateRequest`): consistent type tag, decodable
attributes, and — when the mask touches the filter — a non-empty,
syntactically valid filter. -/
def updateBadFields (fe : FilterEngine) (req : UpdateRequest) : List (String × String) :=
  match SubtypeFromId req.id with
  | .oidc =>
    let ty := pbGetType req.item
    let bfT := if ty != "" && ty != oidcTypeStr then [(globType, msgTypeMismatchUpdate)] else []
    let dec := structToProtoOidcOpt (pbGetAttributes req.item)
    let bfA := match dec with
      | .error _ => [(globAttributes, msgBadAttrs)]
      | .ok _ => []
    let attrs : OidcAttrs := match dec with
      | .error _ => { filter := "" }
      | .ok a => a
    let bfF :=
      if maskContains req.updateMask attrFilterField then
        if attrs.filter = "" then [(attrFilterField, msgFilterEmpty)]
        else if fe.evalOk attrs.filter then [] else [(attrFilterField, msgFilterBad)]
      else []
    bfT ++ bfA ++ bfF
  | .unknown => []

/-- Modelled from the spec: `handlers.ValidateUpdateRequest` — request-shape
checks before the subtype closure: a correctly formatted id with the given
tag, a required current version (§4.7 Update), a provided update mask. -/
def validateUpdateRequest (fe : FilterEngine) (req : UpdateRequest) : Option ApiErr :=
  let shape :=
    (if hasTag mgTag req.id then [] else [(globId, msgBadIdFormat)]) ++
    (if pbGetVersion req.item = 0 then [(globVersion, msgVersionRequired)] else []) ++
    (if req.updateMask = [] then [(updateMaskKey, msgMaskRequired)] else [])
  let bf := shape ++ updateBadFields fe req
  if bf = [] then none else some (invalidArgErr msgErrInRequest bf)

/-! ## CRUD orchestrators -/

/-- The outcome a handler surfaces: a response, a typed failure, or `crash`
for the paths where the Go code would dereference a nil value. -/
inductive Outcome (α : Type)
  | ok (a : α)
  | err (e : ApiErr)
  | crash
deriving DecidableEq

def Outcome.errCode {α : Type} : Outcome α → Option ErrCode
  | .err e => some e.code
  | _ => none

/-- `FetchActionSetForId(...).Strings()` for an entity: the per-item
authorized-action subset as strings. -/
def authActsStrs (pol : Policy) (mg : ManagedGroup) : List String :=
  (pol.fetchActionSetForId mg.getPublicId (IdActions (SubtypeFromId mg.getPublicId))).map ActionT.str

/-- The output options each handler assembles before projecting: the output
field set, the scope when requested, and the authorized-action strings when
requested. -/
def mkOutputOpts (pol : Policy) (vr : VerifyResults) (ofs : List String) (mg : ManagedGroup) :
    TPOpts :=
  { withOutputFields := some ofs
    withScope := if ofs.contains globScope then vr.scope else none
    withAuthorizedActions :=
      if ofs.contains globAuthorizedActions then some (authActsStrs pol mg) else none }

/-- `GetManagedGroup`. -/
def GetManagedGroup (s : Service) (pol : Policy) (ctx : Ctx) (req : GetRequest) :
    Outcome PbManagedGroup × List Event :=
  match validateGetRequest req with
  | some e => (.err e, [])
  | none =>
    match parentAndAuthResult s pol req.id .read with
    | (.nilDeref, tr) => (.crash, tr)
    | (.res _am vr, tr) =>
      match vr.error with
      | some e => (.err e, tr)
      | none =>
        match getFromRepo s req.id with
        | (.error e, tr2) => (.err e, tr ++ tr2)
        | (.ok none, tr2) => (.crash, tr ++ tr2)
        | (.ok (some mg), tr2) =>
          match ctx.outputFields with
          | none => (.err noReqCtxErr, tr ++ tr2)
          | some ofs =>
            match toProto mg (mkOutputOpts pol vr ofs mg) with
            | .error e => (.err e, tr ++ tr2)
            | .ok item => (.ok item, tr ++ tr2)

/-- `CreateManagedGroup`; a successful response carries the item and the
canonical location locator. -/
def CreateManagedGroup (s : Service) (pol : Policy) (fe : FilterEngine) (ctx : Ctx)
    (req : CreateRequest) : Outcome (PbManagedGroup × String) × List Event :=
  match validateCreateRequest fe req with
  | some e => (.err e, [])
  | none =>
    match parentAndAuthResult s pol (pbGetAuthMethodId req.item) .create with
    | (.nilDeref, tr) => (.crash, tr)
    | (.res amOpt vr, tr) =>
      match vr.error with
      | some e => (.err e, tr)
      | none =>
        match amOpt with
        | none => (.crash, tr)
        | some am =>
          match createInRepo s am req.item with
          | (.error e, tr2) => (.err e, tr ++ tr2)
          | (.ok none, tr2) => (.crash, tr ++ tr2)
          | (.ok (some mg), tr2) =>
            match ctx.outputFields with
            | none => (.err noReqCtxErr, tr ++ tr2)
            | some ofs =>
              match toProto mg (mkOutputOpts pol vr ofs mg) with
              | .error e => (.err e, tr ++ tr2)
              | .ok item => (.ok (item, uriHead ++ pbGetId item), tr ++ tr2)

/-- `UpdateManagedGroup`. -/
def UpdateManagedGroup (s : Service) (pol : Policy) (fe : FilterEngine) (ctx : Ctx)
    (req : UpdateRequest) : Outcome PbManagedGroup × List Event :=
  match validateUpdateRequest fe req with
  | some e => (.err e, [])
  | none =>
    match parentAndAuthResult s pol req.id .update with
    | (.nilDeref, tr) => (.crash, tr)
    | (.res amOpt vr, tr) =>
      match vr.error with
      | some e => (.err e, tr)
      | none =>
        match amOpt with
        | none => (.crash, tr)
        | some am =>
          match updateInRepo s (vrScopeId vr) am.publicId req with
          | (.error e, tr2) => (.err e, tr ++ tr2)
          | (.ok none, tr2) => (.crash, tr ++ tr2)
          | (.ok (some mg), tr2) =>
            match ctx.outputFields with
            | none => (.err noReqCtxErr, tr ++ tr2)
            | some ofs =>
              match toProto mg (mkOutputOpts pol vr ofs mg) with
              | .error e => (.err e, tr ++ tr2)
              | .ok item => (.ok item, tr ++ tr2)

/-- `DeleteManagedGroup`; the Go handler discards `deleteFromRepo`'s boolean
and returns an empty response. -/
def DeleteManagedGroup (s : Service) (pol : Policy) (req : DeleteRequest) :
    Outcome Unit × List Event :=
  match validateDeleteRequest req with
  | some e => (.err e, [])
  | none =>
    match parentAndAuthResult s pol req.id .delete with
    | (.nilDeref, tr) => (.crash, tr)
    | (.res _am vr, tr) =>
      match vr.error with
      | some e => (.err e, tr)
      | none =>
        match deleteFromRepo s (vrScopeId vr) req.id with
        | (.error e, tr2) => (.err e, tr ++ tr2)
        | (.ok _b, tr2) => (.ok (), tr ++ tr2)

/-- The per-item loop of `ListManagedGroups`: items whose authorized-action
subset is empty are dropped before projection; surviving items are projected
with the actor's per-item output-field set and only then matched against the
client filter. -/
def listLoop (pol : Policy) (vr : VerifyResults) (matchFn : PbManagedGroup → Bool) :
    List ManagedGroup → Except ApiErr (List PbManagedGroup)
  | [] => .ok []
  | mg :: rest =>
    if authActsStrs pol mg = [] then listLoop pol vr matchFn rest
    else
      match toProto mg (mkOutputOpts pol vr (pol.fetchOutputFields mg.getPublicId) mg) with
      | .error e => .error e
      | .ok item =>
        match listLoop pol vr matchFn rest with
        | .error e => .error e
        | .ok out => .ok (if matchFn item then item :: out else out)

/-- `ListManagedGroups`. -/
def ListManagedGroups (s : Service) (pol : Policy) (fe : FilterEngine) (req : ListRequest) :
    Outcome (List PbManagedGroup) × List Event :=
  match validateListRequest fe req with
  | some e => (.err e, [])
  | none =>
    match parentAndAuthResult s pol req.authMethodId .list with
    | (.nilDeref, tr) => (.crash, tr)
    | (.res _am vr, tr) =>
      match vr.error with
      | some e => (.err e, tr)
      | none =>
        match listFromRepo s req.authMethodId with
        | (.error e, tr2) => (.err e, tr ++ tr2)
        | (.ok ul, tr2) =>
          if ul = [] then (.ok [], tr ++ tr2)
          else
            match fe.newFilter req.filter with
            | .error e => (.err e, tr ++ tr2)
            | .ok matchFn =>
              match listLoop pol vr matchFn ul with
              | .error e => (.err e, tr ++ tr2)
              | .ok items => (.ok items, tr ++ tr2)

/-! ## Helper lemmas -/

theorem isSome_ite_opt {α : Type} (c : Bool) (x : Option α) :
    (if c then x else none).isSome = true → c = true := by
  cases c <;> simp

theorem mem_ite_single (b : Bool) (g f : String) :
    f ∈ (if b then [g] else []) → b = true ∧ f = g := by
  cases b <;> simp

/-! ## C8: attribute codec round-trip -/

/-- C8: for every valid Oidc attribute value, the `ProtoToStruct` encode step
used by the output projector succeeds, and the `StructToProto` decode step
used by the Create/Update paths recovers the original attributes:
`decode(encode(attrs)) = attrs`. -/
theorem oidc_attr_codec_roundtrip (a : OidcAttrs) :
    ∃ st, protoToStruct a = .ok st ∧ structToProtoOidc st = .ok a := by
  refine ⟨encodeOidcAttrs a, rfl, ?_⟩
  simp [structToProtoOidc, encodeOidcAttrs]

/-! ## C1: output projection never exceeds the requested field set -/

/-- C1: for every entity and every requested output-field set, the wire
representation produced by `toProto` sets a field only if the requested set
contains that field's name: the projected field set is a subset of the
requested field set. -/
theorem toProto_fields_in_requested
    (input : ManagedGroup) (opt : TPOpts) (ofs : List String) (out : PbManagedGroup)
    (hOF : opt.withOutputFields = some ofs)
    (h : toProto input opt = .ok out) :
    ∀ f ∈ pbSetFields out, ofs.contains f = true := by
  cases input with
  | oidc i =>
    rw [toProto, hOF] at h
    simp only [protoToStruct] at h
    split at h <;>
      (rw [Except.ok.injEq] at h
       subst h
       intro f hf
       simp only [pbSetFields, List.mem_append] at hf
       rcases hf with ((((((((((hf | hf) | hf) | hf) | hf) | hf) | hf) | hf) | hf) | hf) | hf) <;>
         first
         | (obtain ⟨hc, hfeq⟩ := mem_ite_single _ _ _ hf
            subst hfeq
            first
            | exact isSome_ite_opt _ _ hc
            | exact (Bool.and_eq_true.mp (isSome_ite_opt _ _ hc)).1
            | simp_all))

/-! ## Concrete fixtures for witnesses and counterexamples -/

def idW : String := "mgoidc_w1"

def amIdW : String := "amoidc_w1"

def scopeW : String := "o_w1"

def filtW : String := "f"

def mgRowW : OidcManagedGroup :=
  { publicId := idW, authMethodId := amIdW, name := "", description := "",
    version := 1, createTime := 0, updateTime := 0, filter := filtW }

def amW : AuthMethod := { publicId := amIdW, scopeId := scopeW }

/-- A repository in which every call succeeds and every row exists. -/
def repoW : OidcRepo :=
  { lookupManagedGroup := fun _ => .ok (some mgRowW)
    lookupAuthMethod := fun _ => .ok (some amW)
    createManagedGroup := fun _ mg => .ok (some { mg with publicId := idW, version := 1 })
    updateManagedGroup := fun _ mg _ _ => .ok (some { mg with version := 2 }, 1)
    deleteManagedGroup := fun _ _ => .ok 1
    listManagedGroups := fun _ => .ok [mgRowW] }

def sW : Service := { oidcRepoFn := .ok repoW }

def vrW : VerifyResults :=
  { error := none, scope := some { id := scopeW }, userId := "u_w" }

/-- A policy engine that authorizes everything and grants the full candidate
action set. -/
def polW : Policy :=
  { verify := fun _ => vrW
    fetchActionSetForId := fun _ cand => cand
    fetchOutputFields := fun _ => [globId] }

/-- A filter engine for which every expression parses and every item matches. -/
def feW : FilterEngine :=
  { evalOk := fun _ => true, newFilter := fun _ => .ok (fun _ => true) }

def ctxW : Ctx := { outputFields := some [globId] }

def c1OptW : TPOpts := { withOutputFields := some [globId, globVersion] }

def c1OutW : PbManagedGroup := { id := some idW, version := some 1 }

/-- Witness for C1 at a concrete entity and requested field set. -/
theorem toProto_fields_in_requested_witness :
    ([globId, globVersion] : List String).contains globId = true :=
  toProto_fields_in_requested (.oidc mgRowW) c1OptW [globId, globVersion] c1OutW rfl rfl
    globId (by decide)

/-! ## Resolver lemmas -/

theorem paaParent_verify_needs_am (repo : OidcRepo) (pol : Policy) (tr0 : List Event)
    (pid : String) (rid : Option String) (a : ActionT) (out : PAA) (tr : List Event)
    (h : paaParent repo pol tr0 pid rid a = (out, tr))
    (h0 : Event.verify ∉ tr0) (hv : Event.verify ∈ tr) :
    ∃ am vr, out = PAA.res (some am) vr := by
  unfold paaParent at h
  cases hS : SubtypeFromId pid <;> rw [hS] at h
  case unknown =>
    rw [Prod.mk.injEq] at h
    obtain ⟨h1, h2⟩ := h
    subst h2
    exact absurd hv h0
  case oidc =>
    cases hL : repo.lookupAuthMethod pid <;> rw [hL] at h
    case error e =>
      rw [Prod.mk.injEq] at h
      obtain ⟨h1, h2⟩ := h
      subst h2
      rcases List.mem_append.mp hv with hv0 | hv1
      · exact absurd hv0 h0
      · simp at hv1
    case ok o =>
      cases o with
      | none =>
        rw [Prod.mk.injEq] at h
        obtain ⟨h1, h2⟩ := h
        subst h2
        rcases List.mem_append.mp hv with hv0 | hv1
        · exact absurd hv0 h0
        · simp at hv1
      | some am =>
        rw [Prod.mk.injEq] at h
        exact ⟨am, _, h.1.symm⟩

theorem paaParent_ne_nilDeref (repo : OidcRepo) (pol : Policy) (tr0 : List Event)
    (pid : String) (rid : Option String) (a : ActionT)
    (h : SubtypeFromId pid = Subtype.oidc) :
    (paaParent repo pol tr0 pid rid a).1 ≠ PAA.nilDeref := by
  unfold paaParent
  rw [h]
  cases hL : repo.lookupAuthMethod pid with
  | error e => simp
  | ok o => cases o <;> simp

theorem paa_absent_eq (s : Service) (pol : Policy) (repo : OidcRepo) (id : String)
    (a : ActionT)
    (hRepo : s.oidcRepoFn = .ok repo)
    (hne : ¬(a = ActionT.list ∨ a = ActionT.create))
    (hSub : SubtypeFromId id = Subtype.oidc)
    (hLook : repo.lookupManagedGroup id = .ok none) :
    parentAndAuthResult s pol id a =
      (.res none (errResults handlersNotFoundError), [.lookupManagedGroup id]) := by
  simp only [parentAndAuthResult, hRepo]
  rw [if_neg hne]
  simp only [hSub, hLook]

/-! ## C4: absent target ⇒ NotFound before the policy engine -/

/-- C4: for Read/Update/Delete of an oidc-subtype id whose managed group is
absent from the repository, the authorization resolver returns NotFound with
only the managed-group lookup in its trace — the policy engine (`verify`)
was never invoked; and, in general, a `verify` event can only appear in a
resolver trace whose outcome carries a resolved (non-nil) parent auth
method. -/
theorem absent_group_notfound_before_verify :
    (∀ (s : Service) (pol : Policy) (repo : OidcRepo) (id : String) (a : ActionT),
      s.oidcRepoFn = .ok repo →
      (a = .read ∨ a = .update ∨ a = .delete) →
      SubtypeFromId id = .oidc →
      repo.lookupManagedGroup id = .ok none →
      parentAndAuthResult s pol id a =
        (.res none (errResults handlersNotFoundError), [.lookupManagedGroup id]) ∧
      Event.verify ∉ (parentAndAuthResult s pol id a).2) ∧
    (∀ (s : Service) (pol : Policy) (id : String) (a : ActionT)
      (am : Option AuthMethod) (vr : VerifyResults) (tr : List Event),
      parentAndAuthResult s pol id a = (.res am vr, tr) →
      Event.verify ∈ tr → am.isSome = true) := by
  constructor
  · intro s pol repo id a hRepo ha hSub hLook
    have hne : ¬(a = ActionT.list ∨ a = ActionT.create) := by
      rcases ha with ha | ha | ha <;> subst ha <;> simp
    have hres := paa_absent_eq s pol repo id a hRepo hne hSub hLook
    refine ⟨hres, ?_⟩
    rw [hres]
    simp
  · intro s pol id a am vr tr h hv
    unfold parentAndAuthResult at h
    cases hRepo : s.oidcRepoFn <;> simp only [hRepo] at h
    case error e =>
      rw [Prod.mk.injEq] at h
      obtain ⟨h1, h2⟩ := h
      subst h2
      simp at hv
    case ok repo =>
      have hfin : ∀ tr0 pid rid, Event.verify ∉ tr0 →
          paaParent repo pol tr0 pid rid a = (PAA.res am vr, tr) → am.isSome = true := by
        intro tr0 pid rid h0 hp
        obtain ⟨am2, vr2, heq⟩ := paaParent_verify_needs_am repo pol tr0 pid rid a _ _ hp h0 hv
        rw [PAA.res.injEq] at heq
        rw [heq.1]
        rfl
      by_cases hc : a = ActionT.list ∨ a = ActionT.create
      · rw [if_pos hc] at h
        exact hfin [] id none (by simp) h
      · rw [if_neg hc] at h
        cases hS : SubtypeFromId id with
        | oidc =>
          rw [hS] at h
          cases hL : repo.lookupManagedGroup id with
          | error e =>
            rw [hL] at h
            rw [Prod.mk.injEq] at h
            obtain ⟨h1, h2⟩ := h
            subst h2
            simp at hv
          | ok o =>
            rw [hL] at h
            cases o with
            | none =>
              rw [Prod.mk.injEq] at h
              obtain ⟨h1, h2⟩ := h
              subst h2
              simp at hv
            | some acct =>
              exact hfin [.lookupManagedGroup id] acct.authMethodId (some id) (by simp) h
        | unknown =>
          rw [hS] at h
          exact hfin [] "" (some id) (by simp) h

/-- A repository identical to `repoW` except that the target managed group
is absent. -/
def repoAbsW : OidcRepo := { repoW with lookupManagedGroup := fun _ => .ok none }

def sAbsW : Service := { oidcRepoFn := .ok repoAbsW }

def c4IdW : String := "mgoidc_gone"

/-- Witness for C4: a concrete absent group yields NotFound with no `verify`
event, and a concrete successful resolution shows `verify` implies a
resolved auth method. -/
theorem absent_group_notfound_before_verify_witness :
    parentAndAuthResult sAbsW polW c4IdW .read =
      (.res none (errResults handlersNotFoundError), [.lookupManagedGroup c4IdW]) ∧
    (some amW : Option AuthMethod).isSome = true := by
  constructor
  · exact (absent_group_notfound_before_verify.1 sAbsW polW repoAbsW c4IdW .read rfl
      (Or.inl rfl) (by decide) rfl).1
  · exact absent_group_notfound_before_verify.2 sW polW amIdW .list (some amW) vrW
      [.lookupAuthMethod amIdW, .verify] rfl (by decide)

/-! ## C9: nil auth-method dereference in the resolver -/

/-- A repository returning a managed group whose `auth_method_id` does not
classify as any registered subtype (a dangling or corrupt parent
reference). -/
def repoBadParentW : OidcRepo :=
  { repoW with lookupManagedGroup := fun _ => .ok (some { mgRowW with authMethodId := "" }) }

def sBadParentW : Service := { oidcRepoFn := .ok repoBadParentW }

/-- Counterexample for C9 as stated: a Get request whose id the validator
accepts still reaches the nil-auth-method dereference in
`parentAndAuthResult` when the repository returns a managed group whose
`auth_method_id` classifies as Unknown — the validation precondition alone
does not make the nil-dereference branch unreachable. -/
theorem paa_nil_deref_counterexample :
    validateGetRequest { id := idW } = none ∧
    (parentAndAuthResult sBadParentW polW idW .read).1 = PAA.nilDeref := by
  constructor
  · rfl
  · rfl

/-- Well-formedness of the repository: every managed group it returns has an
`auth_method_id` that classifies as the Oidc subtype. -/
def repoWF (repo : OidcRepo) : Prop :=
  ∀ id mg, repo.lookupManagedGroup id = .ok (some mg) →
    SubtypeFromId mg.authMethodId = Subtype.oidc

/-- C9 (amended): for every id the per-operation validators can accept (an
id classifying as the Oidc subtype — the managed-group tag for
Read/Update/Delete, the auth-method tag for List/Create), and a well-formed
repository whose managed groups reference Oidc auth methods,
`parentAndAuthResult` never reaches the nil-auth-method dereference. -/
theorem paa_no_nil_deref_wf (s : Service) (pol : Policy) (id : String) (a : ActionT)
    (hid : SubtypeFromId id = Subtype.oidc)
    (hwf : ∀ repo, s.oidcRepoFn = .ok repo → repoWF repo) :
    (parentAndAuthResult s pol id a).1 ≠ PAA.nilDeref := by
  unfold parentAndAuthResult
  cases hRepo : s.oidcRepoFn with
  | error e => simp
  | ok repo =>
    simp only []
    by_cases hc : a = ActionT.list ∨ a = ActionT.create
    · rw [if_pos hc]
      exact paaParent_ne_nilDeref repo pol [] id none a hid
    · rw [if_neg hc]
      rw [hid]
      cases hL : repo.lookupManagedGroup id with
      | error e => simp
      | ok o =>
        cases o with
        | none => simp
        | some acct =>
          exact paaParent_ne_nilDeref repo pol [.lookupManagedGroup id] acct.authMethodId
            (some id) a (hwf repo hRepo id acct hL)

/-- Witness for the amended C9 at a concrete well-formed repository. -/
theorem paa_no_nil_deref_wf_witness :
    (parentAndAuthResult sW polW idW .read).1 ≠ PAA.nilDeref := by
  apply paa_no_nil_deref_wf sW polW idW .read (by decide)
  intro repo hrepo id mg hmg
  have hr : repoW = repo := by
    simp only [sW] at hrepo
    injection hrepo
  subst hr
  simp only [repoW] at hmg
  injection hmg with h2
  injection h2 with h3
  subst h3
  decide

/-! ## Validator lemmas -/

theorem hasTag_mg_subtype (id : String) (h : hasTag mgTag id = true) :
    SubtypeFromId id = Subtype.oidc := by
  unfold SubtypeFromId
  rw [h]
  simp

theorem hasTag_am_subtype (id : String) (h : hasTag amTag id = true) :
    SubtypeFromId id = Subtype.oidc := by
  unfold SubtypeFromId
  rw [h]
  simp

theorem validateIdFormat_ok_tag (tag id : String)
    (h : validateIdFormat tag id = none) : hasTag tag id = true := by
  cases ht : hasTag tag id with
  | true => rfl
  | false =>
    exfalso
    unfold validateIdFormat at h
    simp [ht] at h

theorem validateUpdate_ok_tag (fe : FilterEngine) (req : UpdateRequest)
    (h : validateUpdateRequest fe req = none) : hasTag mgTag req.id = true := by
  cases ht : hasTag mgTag req.id with
  | true => rfl
  | false =>
    exfalso
    unfold validateUpdateRequest at h
    simp [ht] at h

theorem validateCreate_ok_subtype (fe : FilterEngine) (req : CreateRequest)
    (h : validateCreateRequest fe req = none) :
    SubtypeFromId (pbGetAuthMethodId req.item) = Subtype.oidc := by
  cases hS : SubtypeFromId (pbGetAuthMethodId req.item) with
  | oidc => rfl
  | unknown =>
    exfalso
    unfold validateCreateRequest at h
    cases hi : req.item with
    | none => rw [hi] at h; simp at h
    | some it =>
      rw [hi] at hS
      simp only [validateCreateRequest, createBadFields, hi, hS] at h
      simp at h

/-! ## C2: zero-rows-affected update surfaces as NotFound -/

/-- C2: whenever the repository's conditional update reports zero rows
affected (covering both an absent row and a version mismatch), and the
request had passed validation and authorization, the Update operation
returns the NotFound error — the same fixed error for either cause, so a
version mismatch is indistinguishable from a missing entity. -/
theorem update_zero_rows_notfound
    (s : Service) (pol : Policy) (fe : FilterEngine) (ctx : Ctx) (repo : OidcRepo)
    (req : UpdateRequest) (it : PbManagedGroup) (mg : OidcManagedGroup)
    (am : AuthMethod) (vr : VerifyResults) (tr : List Event) (o : Option OidcManagedGroup)
    (hRepo : s.oidcRepoFn = .ok repo)
    (hVal : validateUpdateRequest fe req = none)
    (hPaa : parentAndAuthResult s pol req.id .update = (.res (some am) vr, tr))
    (hErr : vr.error = none)
    (hItem : req.item = some it)
    (hBuild : buildUpdateMg req.id it = .ok mg)
    (hMask : ¬ oidcMaskManagerTranslate req.updateMask = [])
    (hUpd : repo.updateManagedGroup (vrScopeId vr) mg (pbGetVersion (some it))
        (oidcMaskManagerTranslate req.updateMask) = .ok (o, 0)) :
    (UpdateManagedGroup s pol fe ctx req).1 = .err (updateNotFoundErr req.id) ∧
    (updateNotFoundErr req.id).code = ErrCode.notFound := by
  have hSub : SubtypeFromId req.id = Subtype.oidc :=
    hasTag_mg_subtype _ (validateUpdate_ok_tag fe req hVal)
  have hUOR : updateOidcInRepo s (vrScopeId vr) am.publicId req.id req.updateMask req.item =
      (.error (updateNotFoundErr req.id), [.updateManagedGroup]) := by
    unfold updateOidcInRepo
    simp only [hItem, hBuild]
    rw [if_neg hMask]
    simp only [hRepo, hUpd]
    simp
  have hUIR : updateInRepo s (vrScopeId vr) am.publicId req =
      (.error (updateNotFoundErr req.id), [.updateManagedGroup]) := by
    unfold updateInRepo
    simp only [hSub, hUOR, wrapErr]
  constructor
  · unfold UpdateManagedGroup
    simp only [hVal, hPaa, hErr, hUIR]
  · rfl

def nameW : String := "n"

def repoVerMismatchW : OidcRepo :=
  { repoW with updateManagedGroup := fun _ _ _ _ => .ok (none, 0) }

def sVerW : Service := { oidcRepoFn := .ok repoVerMismatchW }

def c2ItemW : PbManagedGroup := { name := some nameW, version := some 1 }

def c2ReqW : UpdateRequest := { id := idW, updateMask := [globName], item := some c2ItemW }

def c2MgW : OidcManagedGroup := { allocManagedGroup with publicId := idW, name := nameW }

/-- Witness for C2: a concrete conditional update reporting zero rows makes
the Update operation answer NotFound. -/
theorem update_zero_rows_notfound_witness :
    (UpdateManagedGroup sVerW polW feW ctxW c2ReqW).1 = .err (updateNotFoundErr idW) ∧
    (updateNotFoundErr idW).code = ErrCode.notFound :=
  update_zero_rows_notfound sVerW polW feW ctxW repoVerMismatchW c2ReqW c2ItemW c2MgW amW vrW
    [.lookupManagedGroup idW, .lookupAuthMethod amIdW, .verify] none
    rfl rfl rfl rfl rfl rfl (by decide) rfl

/-! ## C3: empty translated mask -/

def bogusPath : String := "bogus.path"

def c3ReqW : UpdateRequest := { id := idW, updateMask := [bogusPath], item := some c2ItemW }

/-- Counterexample for C3 as stated: an Update whose mask translates to no
storage fields does return InvalidArgument, but repository calls have
already been made before that rejection — the authorization resolver invoked
`LookupManagedGroup` (and `LookupAuthMethod`), so a spy repository does not
record zero invocations. -/
theorem update_empty_mask_repo_calls_counterexample :
    (UpdateManagedGroup sW polW feW ctxW c3ReqW).1 = .err noMaskErr ∧
    noMaskErr.code = ErrCode.invalidArgument ∧
    Event.lookupManagedGroup idW ∈ (UpdateManagedGroup sW polW feW ctxW c3ReqW).2 := by
  refine ⟨rfl, rfl, by decide⟩

theorem paaParent_no_update (repo : OidcRepo) (pol : Policy) (tr0 : List Event)
    (pid : String) (rid : Option String) (a : ActionT)
    (h0 : Event.updateManagedGroup ∉ tr0) :
    Event.updateManagedGroup ∉ (paaParent repo pol tr0 pid rid a).2 := by
  unfold paaParent
  cases SubtypeFromId pid with
  | unknown => simpa using h0
  | oidc =>
    cases repo.lookupAuthMethod pid with
    | error e => simp [h0]
    | ok o => cases o <;> simp [h0]

theorem parentAndAuthResult_no_update (s : Service) (pol : Policy) (id : String)
    (a : ActionT) :
    Event.updateManagedGroup ∉ (parentAndAuthResult s pol id a).2 := by
  unfold parentAndAuthResult
  cases s.oidcRepoFn with
  | error e => simp
  | ok repo =>
    simp only []
    by_cases hc : a = ActionT.list ∨ a = ActionT.create
    · rw [if_pos hc]
      exact paaParent_no_update _ _ _ _ _ _ (by simp)
    · rw [if_neg hc]
      cases SubtypeFromId id with
      | oidc =>
        cases repo.lookupManagedGroup id with
        | error e => simp
        | ok o =>
          cases o with
          | none => simp
          | some acct => exact paaParent_no_update _ _ _ _ _ _ (by simp)
      | unknown => exact paaParent_no_update _ _ _ _ _ _ (by simp)

theorem updateOidcInRepo_empty_mask_trace (s : Service) (scopeId amId id : String)
    (mask : List String) (item : Option PbManagedGroup)
    (hM : oidcMaskManagerTranslate mask = []) :
    (updateOidcInRepo s scopeId amId id mask item).2 = [] := by
  unfold updateOidcInRepo
  cases item with
  | none => rfl
  | some it =>
    dsimp only
    cases hB : buildUpdateMg id it with
    | error e => simp only [hB]
    | ok mg =>
      simp only [hB]
      simp [hM]

theorem updateInRepo_empty_mask_trace (s : Service) (scopeId amId : String)
    (req : UpdateRequest)
    (hM : oidcMaskManagerTranslate req.updateMask = []) :
    (updateInRepo s scopeId amId req).2 = [] := by
  unfold updateInRepo
  cases SubtypeFromId req.id with
  | unknown => rfl
  | oidc =>
    have h := updateOidcInRepo_empty_mask_trace s scopeId amId req.id req.updateMask req.item hM
    rcases hU : updateOidcInRepo s scopeId amId req.id req.updateMask req.item with ⟨fst, snd⟩
    rw [hU] at h
    simp only [hU]
    cases fst with
    | error e => exact h
    | ok o => cases o <;> exact h

theorem update_empty_mask_no_mutation (s : Service) (pol : Policy) (fe : FilterEngine)
    (ctx : Ctx) (req : UpdateRequest)
    (hM : oidcMaskManagerTranslate req.updateMask = []) :
    Event.updateManagedGroup ∉ (UpdateManagedGroup s pol fe ctx req).2 := by
  unfold UpdateManagedGroup
  cases hV : validateUpdateRequest fe req with
  | some e => simp
  | none =>
    rcases hP : parentAndAuthResult s pol req.id ActionT.update with ⟨out, tr⟩
    have htr : Event.updateManagedGroup ∉ tr := by
      have h3 := parentAndAuthResult_no_update s pol req.id ActionT.update
      rw [hP] at h3
      exact h3
    simp only [hP]
    cases out with
    | nilDeref => simpa using htr
    | res amOpt vr =>
      dsimp only
      cases hE : vr.error with
      | some e => simpa using htr
      | none =>
        cases amOpt with
        | none => simpa using htr
        | some am =>
          dsimp only
          have h2 := updateInRepo_empty_mask_trace s (vrScopeId vr) am.publicId req hM
          rcases hU : updateInRepo s (vrScopeId vr) am.publicId req with ⟨fst, snd⟩
          rw [hU] at h2
          have h2s : snd = [] := h2
          subst h2s
          cases fst with
          | error e => simpa using htr
          | ok o =>
            cases o with
            | none => simpa using htr
            | some mg =>
              dsimp only
              cases ctx.outputFields with
              | none => simpa using htr
              | some ofs =>
                dsimp only
                cases toProto mg (mkOutputOpts pol vr ofs mg) with
                | error e => simpa using htr
                | ok item => simpa using htr

/-- C3 (amended): a mask translating to an empty storage-field set makes
`updateOidcInRepo` return InvalidArgument having performed no repository
call of its own (its trace is empty), and the Update operation never reaches
the repository mutation (`UpdateManagedGroup` emits no update event) — but
the authorization resolver has already performed repository lookups before
this rejection, so the overall operation's repository-invocation count is
not zero. -/
theorem update_empty_mask_rejected_before_mutation :
    (∀ (s : Service) (scopeId amId id : String) (mask : List String) (it : PbManagedGroup)
      (mg : OidcManagedGroup),
      buildUpdateMg id it = .ok mg →
      oidcMaskManagerTranslate mask = [] →
      updateOidcInRepo s scopeId amId id mask (some it) = (.error noMaskErr, []) ∧
      noMaskErr.code = ErrCode.invalidArgument) ∧
    (∀ (s : Service) (pol : Policy) (fe : FilterEngine) (ctx : Ctx) (req : UpdateRequest),
      oidcMaskManagerTranslate req.updateMask = [] →
      Event.updateManagedGroup ∉ (UpdateManagedGroup s pol fe ctx req).2) := by
  constructor
  · intro s scopeId amId id mask it mg hB hM
    refine ⟨?_, rfl⟩
    unfold updateOidcInRepo
    simp only [hB]
    simp [hM]
  · intro s pol fe ctx req hM
    exact update_empty_mask_no_mutation s pol fe ctx req hM

/-- Witness for the amended C3 at a concrete request whose mask is
`["bogus.path"]`. -/
theorem update_empty_mask_rejected_before_mutation_witness :
    updateOidcInRepo sW scopeW amIdW idW [bogusPath] (some c2ItemW) = (.error noMaskErr, []) ∧
    Event.updateManagedGroup ∉ (UpdateManagedGroup sW polW feW ctxW c3ReqW).2 := by
  constructor
  · exact (update_empty_mask_rejected_before_mutation.1 sW scopeW amIdW idW [bogusPath]
      c2ItemW c2MgW rfl (by decide)).1
  · exact update_empty_mask_rejected_before_mutation.2 sW polW feW ctxW c3ReqW (by decide)

/-! ## C5: listed items always have a non-empty authorized-action subset -/

/-- An item of a list response is accounted for: it is the projection of some
candidate entity from the repository's list result whose per-item
authorized-action subset is non-empty. -/
def listItemOk (pol : Policy) (vr : VerifyResults) (ul : List ManagedGroup)
    (item : PbManagedGroup) : Prop :=
  ∃ mg, mg ∈ ul ∧ authActsStrs pol mg ≠ [] ∧
    toProto mg (mkOutputOpts pol vr (pol.fetchOutputFields mg.getPublicId) mg) = .ok item

theorem listLoop_items_authorized (pol : Policy) (vr : VerifyResults)
    (matchFn : PbManagedGroup → Bool) :
    ∀ (ul : List ManagedGroup) (items : List PbManagedGroup),
      listLoop pol vr matchFn ul = .ok items →
      ∀ item ∈ items, listItemOk pol vr ul item := by
  intro ul
  induction ul with
  | nil =>
    intro items h item hit
    simp only [listLoop] at h
    injection h with h1
    subst h1
    simp at hit
  | cons mg rest ih =>
    intro items h item hit
    simp only [listLoop] at h
    by_cases hA : authActsStrs pol mg = []
    · rw [if_pos hA] at h
      obtain ⟨mg2, hm, ha, ht⟩ := ih items h item hit
      exact ⟨mg2, List.mem_cons_of_mem _ hm, ha, ht⟩
    · rw [if_neg hA] at h
      cases hT : toProto mg (mkOutputOpts pol vr (pol.fetchOutputFields mg.getPublicId) mg) with
      | error e => rw [hT] at h; simp at h
      | ok it2 =>
        rw [hT] at h
        cases hR : listLoop pol vr matchFn rest with
        | error e => rw [hR] at h; simp at h
        | ok out =>
          rw [hR] at h
          rw [Except.ok.injEq] at h
          subst h
          cases hMc : matchFn it2 with
          | true =>
            rw [hMc] at hit
            simp at hit
            rcases hit with hEq | hTail
            · subst hEq
              exact ⟨mg, List.mem_cons_self _ _, hA, hT⟩
            · obtain ⟨mg2, hm, ha, ht⟩ := ih out hR item hTail
              exact ⟨mg2, List.mem_cons_of_mem _ hm, ha, ht⟩
          | false =>
            rw [hMc] at hit
            simp at hit
            obtain ⟨mg2, hm, ha, ht⟩ := ih out hR item hit
            exact ⟨mg2, List.mem_cons_of_mem _ hm, ha, ht⟩

/-- C5: every item in a List response is the projection of a candidate entity
whose per-item authorized-action subset (`FetchActionSetForId(...).Strings()`)
is non-empty — entities with an empty subset are dropped and contribute no
item. -/
theorem list_items_have_authorized_actions
    (s : Service) (pol : Policy) (fe : FilterEngine) (req : ListRequest)
    (amOpt : Option AuthMethod) (vr : VerifyResults) (trP : List Event)
    (ul : List ManagedGroup) (trL : List Event)
    (items : List PbManagedGroup) (tr : List Event)
    (hPaa : parentAndAuthResult s pol req.authMethodId .list = (.res amOpt vr, trP))
    (hErr : vr.error = none)
    (hL : listFromRepo s req.authMethodId = (.ok ul, trL))
    (hRes : ListManagedGroups s pol fe req = (.ok items, tr)) :
    ∀ item ∈ items, listItemOk pol vr ul item := by
  unfold ListManagedGroups at hRes
  cases hV : validateListRequest fe req with
  | some e => rw [hV] at hRes; simp at hRes
  | none =>
    simp only [hV, hPaa, hErr, hL] at hRes
    by_cases hNil : ul = []
    · rw [if_pos hNil] at hRes
      rw [Prod.mk.injEq] at hRes
      obtain ⟨h1, h2⟩ := hRes
      injection h1 with h1
      subst h1
      intro item hit
      simp at hit
    · rw [if_neg hNil] at hRes
      cases hF : fe.newFilter req.filter with
      | error e => rw [hF] at hRes; simp only [hF] at hRes; simp at hRes
      | ok matchFn =>
        simp only [hF] at hRes
        cases hLoop : listLoop pol vr matchFn ul with
        | error e => simp only [hLoop] at hRes; simp at hRes
        | ok its =>
          simp only [hLoop] at hRes
          rw [Prod.mk.injEq] at hRes
          obtain ⟨h1, h2⟩ := hRes
          injection h1 with h1
          subst h1
          exact listLoop_items_authorized pol vr matchFn ul its hLoop

def c5ReqW : ListRequest := { authMethodId := amIdW, filter := filtW }

def c5ItemW : PbManagedGroup := { id := some idW }

def c5TrPW : List Event := [.lookupAuthMethod amIdW, .verify]

def c5TrLW : List Event := [.listManagedGroups amIdW]

/-- Witness for C5 at a concrete one-element list result. -/
theorem list_items_have_authorized_actions_witness :
    listItemOk polW vrW [ManagedGroup.oidc mgRowW] c5ItemW :=
  list_items_have_authorized_actions sW polW feW c5ReqW (some amW) vrW
    c5TrPW [ManagedGroup.oidc mgRowW] c5TrLW
    [c5ItemW] (c5TrPW ++ c5TrLW)
    (by decide) rfl (by rfl) (by decide) c5ItemW (by decide)

/-! ## C6: ids of Unknown subtype -/

theorem subtype_unknown_no_tags (id : String)
    (h : SubtypeFromId id = Subtype.unknown) :
    hasTag mgTag id = false ∧ hasTag amTag id = false := by
  unfold SubtypeFromId at h
  by_cases hc : (hasTag mgTag id || hasTag amTag id) = true
  · rw [if_pos hc] at h
    exact absurd h (by simp)
  · simp at hc
    exact hc

theorem validateUpdate_some_invalid (fe : FilterEngine) (req : UpdateRequest) (e : ApiErr)
    (h : validateUpdateRequest fe req = some e) : e.code = ErrCode.invalidArgument := by
  unfold validateUpdateRequest at h
  dsimp only at h
  rcases ite_eq_iff.mp h with ⟨hc, h2⟩ | ⟨hc, h2⟩
  · exact absurd h2 (by simp)
  · injection h2 with h1
    rw [← h1]
    rfl

def c6IdW : String := "xyz_1"

/-- Counterexample for C6 as stated: a Get for an id whose subtype is
Unknown returns InvalidArgument (from the request validator), not NotFound. -/
theorem unknown_id_notfound_counterexample :
    SubtypeFromId c6IdW = Subtype.unknown ∧
    (GetManagedGroup sW polW ctxW { id := c6IdW }).1 = .err badIdErr ∧
    badIdErr.code ≠ ErrCode.notFound := by
  refine ⟨by decide, rfl, by decide⟩

/-- C6 (amended): an id whose subtype classifies as Unknown is rejected by
the Get/Update/Delete request validators with InvalidArgument — before any
repository or policy-engine call — never with an Internal error; the
repository-level dispatcher `getFromRepo` independently maps an Unknown
subtype to NotFound. -/
theorem unknown_id_rejected_never_internal
    (s : Service) (pol : Policy) (fe : FilterEngine) (ctx : Ctx) (id : String)
    (mask : List String) (item : Option PbManagedGroup)
    (hU : SubtypeFromId id = Subtype.unknown) :
    (GetManagedGroup s pol ctx { id := id }).1 = .err badIdErr ∧
    (GetManagedGroup s pol ctx { id := id }).2 = [] ∧
    (DeleteManagedGroup s pol { id := id }).1 = .err badIdErr ∧
    (DeleteManagedGroup s pol { id := id }).2 = [] ∧
    (UpdateManagedGroup s pol fe ctx { id := id, updateMask := mask, item := item }).1.errCode =
      some ErrCode.invalidArgument ∧
    (UpdateManagedGroup s pol fe ctx { id := id, updateMask := mask, item := item }).2 = [] ∧
    (getFromRepo s id).1 = .error unrecognizedIdErr ∧
    unrecognizedIdErr.code = ErrCode.notFound ∧
    badIdErr.code = ErrCode.invalidArgument := by
  obtain ⟨hmg, _ham⟩ := subtype_unknown_no_tags id hU
  have hg : validateGetRequest { id := id } = some badIdErr := by
    unfold validateGetRequest validateIdFormat
    simp [hmg]
  have hd : validateDeleteRequest { id := id } = some badIdErr := by
    unfold validateDeleteRequest validateIdFormat
    simp [hmg]
  have hget : GetManagedGroup s pol ctx { id := id } = (.err badIdErr, []) := by
    unfold GetManagedGroup
    simp only [hg]
  have hdel : DeleteManagedGroup s pol { id := id } = (.err badIdErr, []) := by
    unfold DeleteManagedGroup
    simp only [hd]
  have hupd : ∃ e, validateUpdateRequest fe { id := id, updateMask := mask, item := item } =
      some e ∧ e.code = ErrCode.invalidArgument := by
    cases hv : validateUpdateRequest fe { id := id, updateMask := mask, item := item } with
    | none =>
      exfalso
      have h2 : hasTag mgTag id = true := validateUpdate_ok_tag fe _ hv
      rw [hmg] at h2
      exact absurd h2 (by simp)
    | some e => exact ⟨e, rfl, validateUpdate_some_invalid fe _ e hv⟩
  obtain ⟨e, hv, he⟩ := hupd
  have hup : UpdateManagedGroup s pol fe ctx { id := id, updateMask := mask, item := item } =
      (.err e, []) := by
    unfold UpdateManagedGroup
    simp only [hv]
  refine ⟨by rw [hget], by rw [hget], by rw [hdel], by rw [hdel], ?_, by rw [hup], ?_, rfl, rfl⟩
  · rw [hup]
    simp [Outcome.errCode, he]
  · unfold getFromRepo
    simp only [hU]

/-- Witness for the amended C6 at the concrete Unknown id. -/
theorem unknown_id_rejected_never_internal_witness :
    (GetManagedGroup sW polW ctxW { id := c6IdW }).2 = [] ∧
    (getFromRepo sW c6IdW).1 = .error unrecognizedIdErr := by
  have h := unknown_id_rejected_never_internal sW polW feW ctxW c6IdW [] none (by decide)
  exact ⟨h.2.1, h.2.2.2.2.2.2.1⟩

/-! ## C7: deleting an absent entity -/

/-- Counterexample for C7 as stated: deleting an id with the Oidc structural
tag whose entity is absent yields a NotFound error from parent resolution,
not a non-error "not deleted" boolean outcome. -/
theorem delete_absent_notfound_counterexample :
    (DeleteManagedGroup sAbsW polW { id := c4IdW }).1 = .err handlersNotFoundError ∧
    handlersNotFoundError.code = ErrCode.notFound := by
  exact ⟨rfl, rfl⟩

/-- C7 (amended): the repository layer is idempotent — `deleteFromRepo`
reports a zero-rows-affected delete as the boolean `false` without error —
but at the orchestration layer a delete of an id whose entity is absent is
answered with NotFound by the authorization resolver before `deleteFromRepo`
runs (and `DeleteManagedGroup` discards the boolean, returning an empty
response). -/
theorem delete_zero_rows_boolean_outcome :
    (∀ (s : Service) (repo : OidcRepo) (scopeId id : String),
      s.oidcRepoFn = .ok repo →
      SubtypeFromId id = Subtype.oidc →
      repo.deleteManagedGroup scopeId id = .ok 0 →
      deleteFromRepo s scopeId id = (.ok false, [.deleteManagedGroup id])) ∧
    (∀ (s : Service) (pol : Policy) (repo : OidcRepo) (req : DeleteRequest),
      s.oidcRepoFn = .ok repo →
      hasTag mgTag req.id = true →
      repo.lookupManagedGroup req.id = .ok none →
      (DeleteManagedGroup s pol req).1 = .err handlersNotFoundError ∧
      Event.deleteManagedGroup req.id ∉ (DeleteManagedGroup s pol req).2) := by
  constructor
  · intro s repo scopeId id hRepo hSub hDel
    unfold deleteFromRepo
    simp only [hSub, hRepo, hDel]
    rfl
  · intro s pol repo req hRepo hTag hLook
    have hSub := hasTag_mg_subtype _ hTag
    have hval : validateDeleteRequest req = none := by
      unfold validateDeleteRequest validateIdFormat
      simp [hTag]
    have hpaa := paa_absent_eq s pol repo req.id .delete hRepo (by simp) hSub hLook
    have hres : DeleteManagedGroup s pol req =
        (.err handlersNotFoundError, [.lookupManagedGroup req.id]) := by
      unfold DeleteManagedGroup
      simp only [hval, hpaa, errResults]
    refine ⟨by rw [hres], ?_⟩
    rw [hres]
    simp

def repoDel0W : OidcRepo := { repoW with deleteManagedGroup := fun _ _ => .ok 0 }

def sDel0W : Service := { oidcRepoFn := .ok repoDel0W }

/-- Witness for the amended C7: a concrete zero-rows delete yields
`(false, no error)` at the repository layer, and a concrete absent entity
yields NotFound at the operation layer. -/
theorem delete_zero_rows_boolean_outcome_witness :
    deleteFromRepo sDel0W scopeW idW = (.ok false, [.deleteManagedGroup idW]) ∧
    (DeleteManagedGroup sAbsW polW { id := c4IdW }).1 = .err handlersNotFoundError := by
  constructor
  · exact delete_zero_rows_boolean_outcome.1 sDel0W repoDel0W scopeW idW rfl (by decide) rfl
  · exact (delete_zero_rows_boolean_outcome.2 sAbsW polW repoAbsW { id := c4IdW }
      rfl (by decide) rfl).1

/-! ## C10: the mutation precedes output-field retrieval -/

theorem createOidcInRepo_ok_event (s : Service) (am : AuthMethod)
    (item : Option PbManagedGroup) (mgo : OidcManagedGroup) (tr : List Event)
    (h : createOidcInRepo s am item = (.ok mgo, tr)) :
    Event.createManagedGroup ∈ tr := by
  unfold createOidcInRepo at h
  cases item with
  | none => simp at h
  | some it =>
    dsimp only at h
    cases hA : structToProtoOidcOpt it.attributes with
    | error e => simp only [hA] at h; simp at h
    | ok attrs =>
      simp only [hA] at h
      cases hN : newOidcManagedGroup am.publicId attrs.filter (it.name.getD "")
          (it.description.getD "") with
      | error e => simp only [hN] at h; simp at h
      | ok mg2 =>
        simp only [hN] at h
        cases hF : s.oidcRepoFn with
        | error e => simp only [hF] at h; simp at h
        | ok repo =>
          simp only [hF] at h
          cases hC : repo.createManagedGroup am.scopeId mg2 with
          | error e => simp only [hC] at h; simp at h
          | ok o =>
            simp only [hC] at h
            cases o with
            | none => simp at h
            | some out =>
              simp only [Prod.mk.injEq] at h
              rcases h with ⟨h1, h2⟩
              subst h2
              simp

theorem createInRepo_ok_event (s : Service) (am : AuthMethod)
    (item : Option PbManagedGroup) (mg : ManagedGroup) (tr : List Event)
    (h : createInRepo s am item = (.ok (some mg), tr)) :
    Event.createManagedGroup ∈ tr := by
  unfold createInRepo at h
  cases item with
  | none => simp at h
  | some it =>
    cases hS : SubtypeFromId am.publicId with
    | unknown => simp only [hS] at h; simp at h
    | oidc =>
      simp only [hS] at h
      rcases hC : createOidcInRepo s am (some it) with ⟨fst, snd⟩
      rw [hC] at h
      cases fst with
      | error e => simp at h
      | ok mgo =>
        simp only [Prod.mk.injEq] at h
        rcases h with ⟨h1, h2⟩
        subst h2
        exact createOidcInRepo_ok_event s am (some it) mgo snd hC

theorem updateOidcInRepo_ok_event (s : Service) (scopeId amId id : String)
    (mask : List String) (item : Option PbManagedGroup)
    (o : Option OidcManagedGroup) (tr : List Event)
    (h : updateOidcInRepo s scopeId amId id mask item = (.ok o, tr)) :
    Event.updateManagedGroup ∈ tr := by
  unfold updateOidcInRepo at h
  cases item with
  | none => simp at h
  | some it =>
    dsimp only at h
    cases hB : buildUpdateMg id it with
    | error e => simp only [hB] at h; simp at h
    | ok mg =>
      simp only [hB] at h
      by_cases hM : oidcMaskManagerTranslate mask = []
      · rw [if_pos hM] at h
        simp at h
      · rw [if_neg hM] at h
        cases hF : s.oidcRepoFn with
        | error e => simp only [hF] at h; simp at h
        | ok repo =>
          simp only [hF] at h
          cases hU : repo.updateManagedGroup scopeId mg (pbGetVersion (some it))
              (oidcMaskManagerTranslate mask) with
          | error e => simp only [hU] at h; simp at h
          | ok p =>
            rcases p with ⟨out, rows⟩
            simp only [hU] at h
            by_cases hR : rows = 0
            · rw [if_pos hR] at h
              simp only [Prod.mk.injEq] at h
              rcases h with ⟨h1, h2⟩
              subst h2
              simp
            · rw [if_neg hR] at h
              simp only [Prod.mk.injEq] at h
              rcases h with ⟨h1, h2⟩
              subst h2
              simp

theorem updateInRepo_ok_event (s : Service) (scopeId amId : String) (req : UpdateRequest)
    (mg : ManagedGroup) (tr : List Event)
    (h : updateInRepo s scopeId amId req = (.ok (some mg), tr)) :
    Event.updateManagedGroup ∈ tr := by
  unfold updateInRepo at h
  cases hS : SubtypeFromId req.id with
  | unknown => simp only [hS] at h; simp at h
  | oidc =>
    simp only [hS] at h
    rcases hU : updateOidcInRepo s scopeId amId req.id req.updateMask req.item with ⟨fst, snd⟩
    rw [hU] at h
    cases fst with
    | error e => simp at h
    | ok o =>
      cases o with
      | none => simp at h
      | some mgo =>
        simp only [Prod.mk.injEq] at h
        rcases h with ⟨h1, h2⟩
        subst h2
        exact updateOidcInRepo_ok_event s scopeId amId req.id req.updateMask req.item
          (some mgo) snd hU

/-- C10: Create and Update perform the repository mutation before retrieving
the output-field set from the request context; when no request context is
present, the operation returns an Internal error even though the repository
insert or update has already taken effect (its event is in the trace) — the
mutation is not undone. -/
theorem mutation_before_output_fields :
    (∀ (s : Service) (pol : Policy) (fe : FilterEngine) (ctx : Ctx) (req : CreateRequest)
      (am : AuthMethod) (vr : VerifyResults) (trP trC : List Event) (mg : ManagedGroup),
      validateCreateRequest fe req = none →
      parentAndAuthResult s pol (pbGetAuthMethodId req.item) .create = (.res (some am) vr, trP) →
      vr.error = none →
      createInRepo s am req.item = (.ok (some mg), trC) →
      ctx.outputFields = none →
      (CreateManagedGroup s pol fe ctx req).1 = .err noReqCtxErr ∧
      noReqCtxErr.code = ErrCode.internal ∧
      Event.createManagedGroup ∈ (CreateManagedGroup s pol fe ctx req).2) ∧
    (∀ (s : Service) (pol : Policy) (fe : FilterEngine) (ctx : Ctx) (req : UpdateRequest)
      (am : AuthMethod) (vr : VerifyResults) (trP trU : List Event) (mg : ManagedGroup),
      validateUpdateRequest fe req = none →
      parentAndAuthResult s pol req.id .update = (.res (some am) vr, trP) →
      vr.error = none →
      updateInRepo s (vrScopeId vr) am.publicId req = (.ok (some mg), trU) →
      ctx.outputFields = none →
      (UpdateManagedGroup s pol fe ctx req).1 = .err noReqCtxErr ∧
      noReqCtxErr.code = ErrCode.internal ∧
      Event.updateManagedGroup ∈ (UpdateManagedGroup s pol fe ctx req).2) := by
  constructor
  · intro s pol fe ctx req am vr trP trC mg hVal hPaa hErr hCre hCtx
    have hres : CreateManagedGroup s pol fe ctx req = (.err noReqCtxErr, trP ++ trC) := by
      unfold CreateManagedGroup
      simp only [hVal, hPaa, hErr, hCre, hCtx]
    refine ⟨by rw [hres], rfl, ?_⟩
    rw [hres]
    exact List.mem_append.mpr (Or.inr (createInRepo_ok_event s am req.item mg trC hCre))
  · intro s pol fe ctx req am vr trP trU mg hVal hPaa hErr hUpd hCtx
    have hres : UpdateManagedGroup s pol fe ctx req = (.err noReqCtxErr, trP ++ trU) := by
      unfold UpdateManagedGroup
      simp only [hVal, hPaa, hErr, hUpd, hCtx]
    refine ⟨by rw [hres], rfl, ?_⟩
    rw [hres]
    exact List.mem_append.mpr
      (Or.inr (updateInRepo_ok_event s (vrScopeId vr) am.publicId req mg trU hUpd))

def ctxNoneW : Ctx := { outputFields := none }

def c10ItemW : PbManagedGroup :=
  { authMethodId := some amIdW, attributes := some [(filterKey, GValue.str filtW)] }

def c10ReqW : CreateRequest := { item := some c10ItemW }

def c10UpdMgW : OidcManagedGroup := { c2MgW with version := 2 }

def c10TrPW : List Event := [.lookupManagedGroup idW, .lookupAuthMethod amIdW, .verify]

/-- Witness for C10: concrete Create and Update runs in a context without
output fields return Internal while their mutation events are in the trace. -/
theorem mutation_before_output_fields_witness :
    (CreateManagedGroup sW polW feW ctxNoneW c10ReqW).1 = .err noReqCtxErr ∧
    Event.createManagedGroup ∈ (CreateManagedGroup sW polW feW ctxNoneW c10ReqW).2 ∧
    (UpdateManagedGroup sW polW feW ctxNoneW c2ReqW).1 = .err noReqCtxErr ∧
    Event.updateManagedGroup ∈ (UpdateManagedGroup sW polW feW ctxNoneW c2ReqW).2 := by
  have hC := mutation_before_output_fields.1 sW polW feW ctxNoneW c10ReqW amW vrW
    c5TrPW [Event.createManagedGroup] (ManagedGroup.oidc mgRowW)
    (by decide) (by decide) rfl (by rfl) rfl
  have hU := mutation_before_output_fields.2 sW polW feW ctxNoneW c2ReqW amW vrW
    c10TrPW [Event.updateManagedGroup] (ManagedGroup.oidc c10UpdMgW)
    (by decide) (by decide) rfl (by rfl) rfl
  exact ⟨hC.1, hC.2.2, hU.1, hU.2.2⟩

end ManagedGroups
